import Mathlib

/-!
Verification of the Library resolution and caching layer of `librari`
(`src/library.rs`, `src/utils.rs`), shallowly embedded in Lean.

Modelling conventions:
* Strings the Rust code walks character by character (slugs, sort titles)
  are `List Char`, matching Rust's `str::chars()` view; opaque display
  strings (titles, labels, MIME names) stay `String`.
* Filesystem paths (`PathBuf`) are lists of components (`List String`);
  `Path::join` with one component is list append.
* Machine integers (`u64`/`usize` ids) are `Nat`; the one place overflow
  matters — `str::parse::<u64>` — checks `< 2 ^ 64` explicitly.
* Fallible Rust code returns `Except`/`Option`; a Rust `panic!` via
  `.unwrap()` is the distinguished `Outcome.panicked` result.
* External collaborators (rusqlite rows, the epub parser, the filesystem,
  the `lru` crate) are modelled from their documented contracts as value
  maps; documents are their observable interface (resource bytes by path,
  MIME by path, navigation tree).
-/

namespace Librari

/-! ## Navigation trees (`epub::doc::NavPoint`) -/

/-- Models `epub::doc::NavPoint`: a navigation-tree node with a label, a
content path and an ordered list of children (the `play_order` field is not
read by `get_book_index` and is omitted). -/
inductive NavPoint : Type where
  | mk (label : String) (content : String) (children : List NavPoint)

def NavPoint.label : NavPoint → String
  | .mk l _ _ => l

def NavPoint.content : NavPoint → String
  | .mk _ c _ => c

def NavPoint.children : NavPoint → List NavPoint
  | .mk _ _ ch => ch

/-- Models `IndexItem` from `src/library.rs` (its `path : PathBuf` is the nav
point's content path, kept as the `String` the nav tree carries). -/
structure IndexItem : Type where
  label : String
  path : String
  level : Nat
  deriving DecidableEq

mutual
/-- Size of a navigation node: termination measure for the work-list walk. -/
def NavPoint.size : NavPoint → Nat
  | .mk _ _ children => 1 + NavPoint.sizeList children

/-- Total size of a list of navigation nodes. -/
def NavPoint.sizeList : List NavPoint → Nat
  | [] => 0
  | n :: ns => NavPoint.size n + NavPoint.sizeList ns
end

/-- Total size of a traversal stack (the nodes' sizes, levels ignored). -/
def stackSize : List (NavPoint × Nat) → Nat
  | [] => 0
  | (nav, _) :: rest => NavPoint.size nav + stackSize rest

/-- The work-list loop of `Library::get_book_index` (src/library.rs:117-127).
The Rust code keeps the stack in a `Vec` with its top at the END, pops from
the end, and extends with each node's children REVERSED so they pop in
original order.  We model the same stack with its top at the HEAD of the
list: popping takes the head, and pushing the children prepends them in
original order. -/
def flattenStack : List (NavPoint × Nat) → List IndexItem
  | [] => []
  | (nav, level) :: rest =>
      { label := nav.label, path := nav.content, level := level } ::
        flattenStack (nav.children.map (fun c => (c, level + 1)) ++ rest)
termination_by s => stackSize s
decreasing_by
  have key : ∀ (cs : List NavPoint) (lv : Nat) (b : List (NavPoint × Nat)),
      stackSize (cs.map (fun c => (c, lv)) ++ b) =
        NavPoint.sizeList cs + stackSize b := by
    intro cs lv b
    induction cs with
    | nil => simp [stackSize, NavPoint.sizeList]
    | cons c cs ih =>
        simp only [List.map_cons, List.append_eq, List.cons_append, stackSize,
          NavPoint.sizeList, ih]
        omega
  cases nav with
  | mk l c ch =>
      simp only [NavPoint.children, key, stackSize, NavPoint.size]
      omega

/-- The item list produced by `get_book_index`: the work-list starts with the
top-level `toc` entries at level 0 in original order
(`doc.toc.iter().rev().collect()` into a `Vec` that is popped from the end). -/
def get_book_index_items (toc : List NavPoint) : List IndexItem :=
  flattenStack (toc.map (fun nav => (nav, 0)))

mutual
/-- Modelled from the spec's words (§4.5), for comparison with the code's
work-list walk: pre-order traversal of one node — "a node is emitted before
its children" — with the node's level equal to its number of ancestors. -/
def preorderNav : NavPoint → Nat → List IndexItem
  | .mk label content children, level =>
      { label := label, path := content, level := level } ::
        preorderForest children (level + 1)

/-- Modelled from the spec's words (§4.5): pre-order traversal of a forest —
"siblings retain their original relative order"; children sit one level
below their parent. -/
def preorderForest : List NavPoint → Nat → List IndexItem
  | [], _ => []
  | n :: ns, level => preorderNav n level ++ preorderForest ns level
end

/-! ## `src/utils.rs` -/

/-- Models `utils::slugify` (src/utils.rs:1-13): keep ASCII alphanumerics and
spaces, then map each space to `'-'` and every other kept character to its
ASCII lowercase form.  `Char.isAlphanum` / `Char.toLower` coincide with
Rust's `char::is_ascii_alphanumeric` / `char::to_ascii_lowercase`. -/
def slugify (input : List Char) : List Char :=
  (input.filter (fun c => c.isAlphanum || c == ' ')).map
    (fun c => if c == ' ' then '-' else c.toLower)

/-- Numeric value of an ASCII digit character. -/
def digitVal (c : Char) : Nat := c.toNat - 48

/-- Models `str::parse::<u64>` restricted to all-digit inputs (the only
inputs it receives here, produced by `take_while(is_ascii_digit)`): fails on
the empty string, fails on overflow past `u64::MAX`, otherwise yields the
decimal value. -/
def parseU64 (s : List Char) : Option Nat :=
  if s = [] then none
  else
    let n := s.foldl (fun acc c => acc * 10 + digitVal c) 0
    if n < 2 ^ 64 then some n else none

/-- Models `utils::extract_id` (src/utils.rs:15-22): take the maximal leading
run of ASCII digits and parse it as a `u64`. -/
def extract_id (input : List Char) : Except String Nat :=
  match parseU64 (input.takeWhile Char.isDigit) with
  | some n => .ok n
  | none => .error "Invalid ID"

/-- The ASCII character of one decimal digit (callers pass `d < 10`; the
catch-all arm keeps the function total). -/
def digitChar (d : Nat) : Char :=
  match d with
  | 0 => '0' | 1 => '1' | 2 => '2' | 3 => '3' | 4 => '4'
  | 5 => '5' | 6 => '6' | 7 => '7' | 8 => '8' | _ => '9'

/-- Decimal representation of a natural number, most significant digit first:
models the output of Rust's `format!("{}")` on an unsigned integer. -/
def toDecimal (n : Nat) : List Char :=
  if _h : n < 10 then [digitChar n]
  else toDecimal (n / 10) ++ [digitChar (n % 10)]
decreasing_by
  exact Nat.div_lt_self (by omega) (by omega)

/-- The slug built by `Library::list_books` (src/library.rs:44):
`format!("{}-{}", id, utils::slugify(&sort_title))`. -/
def encodeSlug (id : Nat) (sortTitle : List Char) : List Char :=
  toDecimal id ++ '-' :: slugify sortTitle

/-! ## Errors and effects (`src/library.rs`) -/

/-- Models `rusqlite::Error` as far as this code observes it:
`QueryReturnedNoRows` is what `query_row` yields when no row matches (the
rusqlite contract); every other query/row failure is collapsed into
`other`. -/
inductive SqliteErr : Type where
  | queryReturnedNoRows
  | other
  deriving DecidableEq

/-- Models `LibraryError` (src/library.rs:201-207).  The `Io`, `Epub` and
`Sqlite` payloads of the Rust enum are opaque external error values; only
the `Sqlite` payload is observed (no-rows vs. anything else), so the first
two carry nothing here. -/
inductive LibraryError : Type where
  | notFound
  | invalidId (slug : List Char)
  | io
  | epub
  | sqlite (e : SqliteErr)
  deriving DecidableEq

/-- Observable side effects of `get_book_info`: a catalog (SQLite) query or a
filesystem access.  `get_book_info` is modelled together with the list of
effects it performs, so "decoding touches neither" is statable. -/
inductive Effect : Type where
  | catalogQuery (id : Nat)
  | fsAccess (path : List String)
  deriving DecidableEq

/-- Models `get_id` (src/library.rs:209-211): decode and map the error to
`LibraryError::InvalidId(slug)`. -/
def get_id (slug : List Char) : Except LibraryError Nat :=
  match extract_id slug with
  | .ok id => .ok id
  | .error _ => .error (.invalidId slug)

/-- The catalog as the single-row query `SELECT title, path FROM books WHERE
id = ?` observes it: at most one `(title, relative path)` row per id. -/
abbrev Catalog : Type := Nat → Option (String × String)

/-- Models `BookInfo` (src/library.rs:184-193). -/
structure BookInfo : Type where
  id : Nat
  path : List String
  title : String
  deriving DecidableEq

/-- Models `Library::get_book_info` (src/library.rs:133-150) together with
its effect trace: decode the slug with `get_id` (the `?` returns before any
query on failure), then run `query_row`; a missing row is rusqlite's
`QueryReturnedNoRows`, wrapped by `map_err(LibraryError::Sqlite)`; a present
row yields the title and `self.base_path.join(path)`. -/
def get_book_info (db : Catalog) (base : List String) (slug : List Char) :
    Except LibraryError BookInfo × List Effect :=
  match get_id slug with
  | .error e => (.error e, [])
  | .ok id =>
      match db id with
      | none => (.error (.sqlite .queryReturnedNoRows), [.catalogQuery id])
      | some (title, path) =>
          (.ok { id := id, path := base ++ [path], title := title },
            [.catalogQuery id])

/-! ## `Library::list_books` -/

/-- Models `Book` (src/library.rs:174-182). -/
structure Book : Type where
  id : Nat
  slug : List Char
  title : String
  authors : String
  year : String
  has_cover : Bool
  deriving DecidableEq

/-- One well-formed row of the full-scan query `SELECT id, title,
author_sort, strftime(year), sort, has_cover FROM books`. -/
structure BookRow : Type where
  id : Nat
  title : String
  author_sort : String
  year : String
  sort : List Char
  has_cover : Bool
  deriving DecidableEq

/-- What the full catalog scan yields: the whole query can fail
(`prepare`/`query_map` error), and each row can individually fail extraction
(a malformed row: some `row.get(i)` returns `Err`). -/
abbrev RawScan : Type := Except SqliteErr (List (Except SqliteErr BookRow))

/-- The result of a Rust call that may `panic!` (here: the `.unwrap()` calls
of `list_books`): either a returned value or a crash. -/
inductive Outcome (α : Type) : Type where
  | ok (v : α)
  | panicked
  deriving DecidableEq

/-- The row-by-row extraction `.map(|r| r.unwrap())`: every row must be
well-formed, the first malformed one panics (`none` here). -/
def collectRows : List (Except SqliteErr BookRow) → Option (List BookRow)
  | [] => some []
  | .error _ :: _ => none
  | .ok r :: rest => (collectRows rest).map (fun rs => r :: rs)

/-- The `Book` built from one row in `list_books` (src/library.rs:42-49),
slug included. -/
def mkBook (r : BookRow) : Book :=
  { id := r.id, slug := encodeSlug r.id r.sort, title := r.title,
    authors := r.author_sort, year := r.year, has_cover := r.has_cover }

/-- Models `Library::list_books` (src/library.rs:33-55).  `prepare(...)`
`.unwrap()` and `query_map(...).unwrap()` panic when the query fails;
`.map(|r| r.unwrap())` panics on the first malformed row; otherwise every
row becomes a `Book` and the call returns `Ok` (it never builds an `Err`). -/
def list_books (scan : RawScan) : Outcome (Except LibraryError (List Book)) :=
  match scan with
  | .error _ => .panicked
  | .ok rows =>
      match collectRows rows with
      | none => .panicked
      | some rs => .ok (.ok (rs.map mkBook))

/-! ## Documents and resources -/

/-- A parsed epub document as this code observes it (`EpubDoc`): resource
bytes by path (`get_resource_by_path`), MIME by path
(`get_resource_mime_by_path`), and the navigation tree (`doc.toc`). -/
structure Doc : Type where
  resources : String → Option (List Nat)
  mimes : String → Option String
  toc : List NavPoint

/-- A concrete document with no resources and an empty navigation tree, used
to instantiate cache behaviour at concrete inputs. -/
def docStub : Doc :=
  { resources := fun _ => none, mimes := fun _ => none, toc := [] }

/-- Models the document part of `Library::get_resource`
(src/library.rs:66-74): the bytes via `get_resource_by_path(...)
.ok_or(LibraryError::NotFound)?`, then the MIME via
`get_resource_mime_by_path(...).unwrap_or("application/octet-stream")`. -/
def get_resource (doc : Doc) (res_path : String) :
    Except LibraryError (String × List Nat) :=
  match doc.resources res_path with
  | none => .error .notFound
  | some content =>
      let mime := (doc.mimes res_path).getD "application/octet-stream"
      .ok (mime, content)

/-! ## Covers and the filesystem -/

/-- The filesystem as `get_cover` observes it: which paths are regular files
(`Path::is_file`), and what a full read of a path yields (`none` models an
`open`/`read_to_end` error, mapped to `LibraryError::Io`). -/
structure FS : Type where
  isFile : List String → Bool
  readFile : List String → Option (List Nat)

/-- The characters after the last `'.'` of a file name, if it has a dot. -/
def afterLastDot : List Char → Option (List Char)
  | [] => none
  | '.' :: rest =>
      match afterLastDot rest with
      | some e => some e
      | none => some rest
  | _ :: rest => afterLastDot rest

/-- Models `Path::extension`: the part of the last component after its last
`'.'`; a name whose only dot leads (`".bar"`) has no extension. -/
def pathExtension (p : List String) : Option String :=
  match p.getLast? with
  | none => none
  | some name =>
      match name.data with
      | '.' :: rest => (afterLastDot rest).map (fun l => String.mk l)
      | l => (afterLastDot l).map (fun l => String.mk l)

/-- The MIME chosen from the cover path's extension alone
(src/library.rs:97-101): `jpg → image/jpeg`, `png → image/png`, anything
else the generic binary type. -/
def coverMime (cover_path : List String) : String :=
  match pathExtension cover_path with
  | some e =>
      if e = "jpg" then "image/jpeg"
      else if e = "png" then "image/png"
      else "application/octet-stream"
  | none => "application/octet-stream"

/-- Models `Library::get_cover` after `BookInfo` resolution
(src/library.rs:79-102), on the book's directory: pick `cover.jpg` if it is
a file, else `cover.png` if it is a file, else fail `NotFound`; read the
picked file (read errors map to `Io`); the MIME comes from the picked path's
extension only. -/
def get_cover (fs : FS) (dir : List String) :
    Except LibraryError (String × List Nat) :=
  let jpg := dir ++ ["cover.jpg"]
  let png := dir ++ ["cover.png"]
  match (if fs.isFile jpg then some jpg
         else if fs.isFile png then some png
         else none) with
  | none => .error .notFound
  | some cover_path =>
      match fs.readFile cover_path with
      | none => .error .io
      | some data => .ok (coverMime cover_path, data)

/-! ## The document cache

`Library` holds `Mutex<lru::LruCache<usize, Arc<Mutex<Epub>>>>` with capacity
`NonZeroUsize::new(5)` (src/library.rs:20, 24-30) and uses exactly one
operation on it, `try_get_or_insert` (src/library.rs:153-160).  The `lru`
crate is an external collaborator; its operation is modelled from the spec's
§4.3 contract (which matches the crate's documented behaviour): a hit is
promoted to most-recently-used and returned; a miss runs the loader, and on
success inserts at most-recently-used, evicting the least-recently-used
entry when the cache is full; on loader failure nothing changes. -/

/-- A bounded LRU cache keyed by numeric book id, most-recently-used entry
first. -/
structure LruCache (ν : Type) : Type where
  cap : Nat
  entries : List (Nat × ν)

/-- Modelled from the spec (§4.3), matching `lru::LruCache::try_get_or_insert`:
present key → promote and return the stored value; absent key → run the
loader; on `Ok` insert at the front, first dropping the last (least recently
used) entry when the cache is at capacity; on `Err` return the error with
the cache unchanged. -/
def LruCache.try_get_or_insert {ν ε : Type} (c : LruCache ν) (k : Nat)
    (f : Unit → Except ε ν) : Except ε ν × LruCache ν :=
  match c.entries.find? (fun p => p.1 == k) with
  | some (_, v) =>
      (.ok v, { c with entries := (k, v) :: c.entries.eraseP (fun p => p.1 == k) })
  | none =>
      match f () with
      | .error e => (.error e, c)
      | .ok v =>
          let kept := if c.entries.length = c.cap then c.entries.dropLast
                      else c.entries
          (.ok v, { c with entries := (k, v) :: kept })

/-- The cache `Library::new` constructs (src/library.rs:28):
`LruCache::new(NonZeroUsize::new(5).unwrap())`, empty with capacity 5. -/
def newCache (ν : Type) : LruCache ν := { cap := 5, entries := [] }

/-- Models `Library::get_epub_doc` (src/library.rs:153-160): one
`try_get_or_insert` on the cache, keyed by the book id, with the document
loader as closure. -/
def get_epub_doc (cache : LruCache Doc) (id : Nat)
    (loader : Unit → Except LibraryError Doc) :
    Except LibraryError Doc × LruCache Doc :=
  cache.try_get_or_insert id loader

/-- The cache states reachable in a `Library` built by `Library::new`: the
empty capacity-5 cache, then any sequence of `get_epub_doc` calls (each one
`try_get_or_insert` with an arbitrary loader outcome). -/
inductive CacheReachable : LruCache Doc → Prop where
  | new : CacheReachable (newCache Doc)
  | step (c : LruCache Doc) (k : Nat) (f : Unit → Except LibraryError Doc) :
      CacheReachable c → CacheReachable (get_epub_doc c k f).2

/-! ## Theorems: navigation-tree flattening (C1) -/

theorem NavPoint.size_mem_le {c : NavPoint} {ns : List NavPoint}
    (h : c ∈ ns) : NavPoint.size c ≤ NavPoint.sizeList ns := by
  induction ns with
  | nil => cases h
  | cons n ms ih =>
      rcases List.mem_cons.mp h with h1 | h2
      · subst h1; simp [NavPoint.sizeList]
      · have := ih h2
        simp [NavPoint.sizeList]
        omega

/-- Key refinement step, stated with an explicit size bound for strong
induction: popping one node emits exactly its pre-order listing before the
rest of the stack is processed. -/
theorem flattenStack_cons_eq_aux :
    ∀ (n : Nat) (nav : NavPoint), NavPoint.size nav ≤ n →
    ∀ level rest, flattenStack ((nav, level) :: rest) =
      preorderNav nav level ++ flattenStack rest := by
  intro n
  induction n using Nat.strong_induction_on with
  | _ n ih =>
    intro nav hle level rest
    cases nav with
    | mk label content children =>
      rw [flattenStack]
      simp only [NavPoint.label, NavPoint.content, NavPoint.children, preorderNav]
      have hforest : ∀ (cs : List NavPoint),
          (∀ c ∈ cs, NavPoint.size c < n) →
          ∀ (lv : Nat) (tail : List (NavPoint × Nat)),
          flattenStack (cs.map (fun c => (c, lv)) ++ tail) =
            preorderForest cs lv ++ flattenStack tail := by
        intro cs
        induction cs with
        | nil => intro _ lv tail; simp [preorderForest]
        | cons c cs' ihc =>
            intro hsz lv tail
            simp only [List.map_cons, List.cons_append]
            rw [ih (NavPoint.size c) (hsz c (by simp)) c le_rfl lv
              (cs'.map (fun c => (c, lv)) ++ tail)]
            rw [ihc (fun d hd => hsz d (by simp [hd])) lv tail]
            simp [preorderForest]
      rw [hforest children ?_ (level + 1) rest]
      · simp
      · intro c hc
        have hcle := NavPoint.size_mem_le hc
        have hsz : NavPoint.size (NavPoint.mk label content children) =
            1 + NavPoint.sizeList children := by
          simp [NavPoint.size]
        omega

/-- Popping one node emits exactly its pre-order listing before the rest of
the stack is processed. -/
theorem flattenStack_cons_eq (nav : NavPoint) (level : Nat)
    (rest : List (NavPoint × Nat)) :
    flattenStack ((nav, level) :: rest) =
      preorderNav nav level ++ flattenStack rest :=
  flattenStack_cons_eq_aux (NavPoint.size nav) nav le_rfl level rest

theorem get_book_index_items_eq_preorder (toc : List NavPoint) :
    get_book_index_items toc = preorderForest toc 0 := by
  unfold get_book_index_items
  induction toc with
  | nil => simp [flattenStack, preorderForest]
  | cons n ns ih =>
      simp only [List.map_cons]
      rw [flattenStack_cons_eq n 0 (ns.map (fun nav => (nav, 0)))]
      rw [ih]
      simp [preorderForest]

/-- Claim C1: `get_book_index` flattens every navigation forest to the single
ordered list given by pre-order traversal — each node before its children,
siblings in original relative order, each item's level equal to its number of
ancestors — and on the forest `A(children: B, C(children: D))` (A top-level)
it yields exactly `[A@0, B@1, C@1, D@2]`. -/
theorem claim_C1_get_book_index_preorder :
    (∀ toc : List NavPoint, get_book_index_items toc = preorderForest toc 0) ∧
    get_book_index_items
        [NavPoint.mk "A" "a.html"
          [NavPoint.mk "B" "b.html" [],
           NavPoint.mk "C" "c.html" [NavPoint.mk "D" "d.html" []]]] =
      [{ label := "A", path := "a.html", level := 0 },
       { label := "B", path := "b.html", level := 1 },
       { label := "C", path := "c.html", level := 1 },
       { label := "D", path := "d.html", level := 2 }] := by
  constructor
  · exact get_book_index_items_eq_preorder
  · simp [get_book_index_items, flattenStack, NavPoint.label, NavPoint.content,
      NavPoint.children]

/-! ## Theorems: slugs (C3, C4, C10) -/

theorem uint32_le_iff {a b : UInt32} : a ≤ b ↔ a.toNat ≤ b.toNat := Iff.rfl

theorem isDigit_iff {c : Char} : c.isDigit = true ↔ 48 ≤ c.toNat ∧ c.toNat ≤ 57 := by
  simp [Char.isDigit, Char.toNat, uint32_le_iff]
  norm_num [UInt32.size]

theorem isUpper_iff {c : Char} : c.isUpper = true ↔ 65 ≤ c.toNat ∧ c.toNat ≤ 90 := by
  simp [Char.isUpper, Char.toNat, uint32_le_iff]
  norm_num [UInt32.size]

theorem isLower_iff {c : Char} : c.isLower = true ↔ 97 ≤ c.toNat ∧ c.toNat ≤ 122 := by
  simp [Char.isLower, Char.toNat, uint32_le_iff]
  norm_num [UInt32.size]

theorem toNat_ofNat_valid {n : Nat} (h : n.isValidChar) : (Char.ofNat n).toNat = n := by
  rw [Char.ofNat, dif_pos h]
  rfl

theorem toLower_toNat (c : Char) :
    (Char.toLower c).toNat =
      if 65 ≤ c.toNat ∧ c.toNat ≤ 90 then c.toNat + 32 else c.toNat := by
  rw [Char.toLower]
  split
  · next h => exact toNat_ofNat_valid (Or.inl (by omega))
  · next h => rfl

/-- Each character `slugify` keeps maps to `'-'` (from a space) or to a
lowercase ASCII alphanumeric. -/
theorem slug_char (c : Char) (h : (c.isAlphanum || c == ' ') = true) :
    (if c == ' ' then '-' else c.toLower) = '-' ∨
    ((if c == ' ' then '-' else c.toLower).isDigit = true ∨
     (if c == ' ' then '-' else c.toLower).isLower = true) := by
  by_cases hs : c = ' '
  · subst hs; simp
  · rw [if_neg (by simp [hs])]
    right
    simp only [Bool.or_eq_true, beq_iff_eq, hs, or_false] at h
    simp only [Char.isAlphanum, Char.isAlpha, Bool.or_eq_true] at h
    rcases h with (hu | hl) | hd
    · right
      rw [isLower_iff, toLower_toNat]
      rw [isUpper_iff] at hu
      rw [if_pos hu]
      omega
    · right
      rw [isLower_iff, toLower_toNat]
      rw [isLower_iff] at hl
      rw [if_neg (by omega)]
      omega
    · left
      rw [isDigit_iff, toLower_toNat]
      rw [isDigit_iff] at hd
      rw [if_neg (by omega)]
      omega

theorem digitChar_isDigit (d : Nat) : (digitChar d).isDigit = true := by
  unfold digitChar
  split <;> decide

theorem digitVal_digitChar {d : Nat} (h : d < 10) : digitVal (digitChar d) = d := by
  interval_cases d <;> decide

theorem toDecimal_all_digits (n : Nat) : ∀ c ∈ toDecimal n, c.isDigit = true := by
  induction n using Nat.strong_induction_on with
  | _ n ih =>
    rw [toDecimal]
    split
    · intro c hc
      simp only [List.mem_singleton] at hc
      subst hc
      exact digitChar_isDigit n
    · next h =>
      intro c hc
      rcases List.mem_append.mp hc with h1 | h2
      · exact ih (n / 10) (Nat.div_lt_self (by omega) (by omega)) c h1
      · simp only [List.mem_singleton] at h2
        subst h2
        exact digitChar_isDigit _

theorem toDecimal_ne_nil (n : Nat) : toDecimal n ≠ [] := by
  rw [toDecimal]
  split
  · simp
  · simp

/-- Folding the decimal digits back recovers the number: the parse half of
the encode/decode round trip. -/
theorem foldl_toDecimal (n : Nat) :
    (toDecimal n).foldl (fun acc c => acc * 10 + digitVal c) 0 = n := by
  induction n using Nat.strong_induction_on with
  | _ n ih =>
    rw [toDecimal]
    split
    · next h =>
        simp only [List.foldl_cons, List.foldl_nil]
        rw [digitVal_digitChar h]
        omega
    · next h =>
        rw [List.foldl_append]
        rw [ih (n / 10) (Nat.div_lt_self (by omega) (by omega))]
        simp only [List.foldl_cons, List.foldl_nil]
        rw [digitVal_digitChar (Nat.mod_lt n (by omega))]
        omega

theorem takeWhile_append_all {p : Char → Bool} {l1 l2 : List Char}
    (h : ∀ a ∈ l1, p a = true) :
    (l1 ++ l2).takeWhile p = l1 ++ l2.takeWhile p := by
  induction l1 with
  | nil => simp
  | cons a l1 ih =>
      simp only [List.cons_append, List.takeWhile_cons, h a (by simp), if_true]
      simp only [ih (fun b hb => h b (by simp [hb]))]

/-- The leading digit run of an encoded slug is exactly the encoded id. -/
theorem takeWhile_encodeSlug (id : Nat) (title : List Char) :
    (encodeSlug id title).takeWhile Char.isDigit = toDecimal id := by
  unfold encodeSlug
  rw [takeWhile_append_all (toDecimal_all_digits id)]
  rw [List.takeWhile_cons]
  simp

/-- Claim C3: for every id < 2^64 (a `u64`) and every title, decoding the
slug produced by encoding the id with that title — decimal id, `'-'`
separator, slugified title — recovers exactly that id; the title fragment
never affects the decoded id. -/
theorem claim_C3_slug_roundtrip (id : Nat) (title : List Char)
    (h : id < 2 ^ 64) :
    extract_id (encodeSlug id title) = .ok id := by
  unfold extract_id
  rw [takeWhile_encodeSlug]
  unfold parseU64
  rw [if_neg (toDecimal_ne_nil id)]
  simp only [foldl_toDecimal]
  rw [if_pos h]

theorem claim_C3_witness :
    extract_id (encodeSlug 7 ['D', 'u', 'n', 'e']) = .ok 7 :=
  claim_C3_slug_roundtrip 7 ['D', 'u', 'n', 'e'] (by norm_num)

/-- Claim C10: every character of `slugify`'s output is `'-'` or a lowercase
ASCII alphanumeric; each space becomes exactly one `'-'` (runs are not
collapsed); any character that is neither an ASCII alphanumeric nor a space
(non-ASCII letters and digits included) is dropped. -/
theorem claim_C10_slugify_chars (l xs ys : List Char) (c : Char) :
    (∀ d ∈ slugify l, d = '-' ∨ d.isDigit = true ∨ d.isLower = true) ∧
    slugify (xs ++ ' ' :: ys) = slugify xs ++ '-' :: slugify ys ∧
    ((c.isAlphanum || c == ' ') = false →
      slugify (xs ++ c :: ys) = slugify xs ++ slugify ys) := by
  refine ⟨?_, ?_, ?_⟩
  · intro d hd
    unfold slugify at hd
    rcases List.mem_map.mp hd with ⟨a, ha, hmap⟩
    have hp := List.of_mem_filter ha
    subst hmap
    exact slug_char a hp
  · unfold slugify
    rw [List.filter_append]
    simp
  · intro hc
    unfold slugify
    rw [List.filter_append]
    simp [List.filter_cons, hc]

theorem claim_C10_witness :
    ('a' = '-' ∨ 'a'.isDigit = true ∨ 'a'.isLower = true) ∧
    slugify [' ', ' '] = ['-', '-'] ∧
    slugify ['a', 'é', 'B'] = ['a', 'b'] := by
  refine ⟨(claim_C10_slugify_chars ['A'] [] [] ' ').1 'a' (by decide),
    ?_, ?_⟩
  · have h := (claim_C10_slugify_chars [] [' '] [] ' ').2.1
    simpa using h
  · have h := (claim_C10_slugify_chars [] ['a'] ['B'] 'é').2.2 (by decide)
    simpa using h

/-! ## Theorems: decoding failures and book lookup (C4, C5) -/

/-- Claim C4: for every slug whose maximal leading run of decimal digits is
empty or does not parse as a non-negative 64-bit integer, decoding fails
with the invalid-identifier error kind, and `get_book_info` returns that
error having performed no catalog query and no filesystem access (its effect
trace is empty). -/
theorem claim_C4_decode_failure (slug : List Char)
    (h : slug.takeWhile Char.isDigit = [] ∨
      2 ^ 64 ≤ (slug.takeWhile Char.isDigit).foldl
        (fun acc c => acc * 10 + digitVal c) 0) :
    get_id slug = .error (.invalidId slug) ∧
    ∀ (db : Catalog) (base : List String),
      get_book_info db base slug = (.error (.invalidId slug), []) := by
  have hparse : parseU64 (slug.takeWhile Char.isDigit) = none := by
    unfold parseU64
    by_cases hnil : slug.takeWhile Char.isDigit = []
    · rw [if_pos hnil]
    · rw [if_neg hnil]
      rcases h with h | h
      · exact absurd h hnil
      · simp only
        rw [if_neg (by omega)]
  have hid : get_id slug = .error (.invalidId slug) := by
    unfold get_id extract_id
    rw [hparse]
  refine ⟨hid, fun db base => ?_⟩
  unfold get_book_info
  rw [hid]

theorem claim_C4_witness :
    get_id ['x', '7'] = .error (.invalidId ['x', '7']) ∧
    get_book_info (fun _ => none) [] ['x', '7'] =
      (.error (.invalidId ['x', '7']), []) := by
  have h := claim_C4_decode_failure ['x', '7'] (Or.inl (by decide))
  exact ⟨h.1, h.2 (fun _ => none) []⟩

/-- Claim C5 counterexample: with an empty catalog and the decodable slug
`"1"`, `get_book_info` fails with the `Sqlite` error kind (rusqlite's
`QueryReturnedNoRows` wrapped by `map_err(LibraryError::Sqlite)` at
src/library.rs:148), not with the `NotFound` kind the claim states. -/
theorem claim_C5_counterexample :
    (get_book_info (fun _ => none) [] ['1']).1 =
      .error (.sqlite .queryReturnedNoRows) ∧
    (get_book_info (fun _ => none) [] ['1']).1 ≠ .error .notFound := by
  constructor
  · rfl
  · intro hc
    have h1 : (get_book_info (fun _ => none) [] ['1']).1 =
        .error (.sqlite .queryReturnedNoRows) := rfl
    rw [h1] at hc
    have hc2 := Except.error.inj hc
    cases hc2

/-- Claim C5 (amended): for every decoded id with no matching catalog row,
`get_book_info` fails with the `Sqlite` error kind wrapping the no-rows
query error (not the `NotFound` kind, which this function never produces);
when a row matches, it returns the row's title and the stored relative path
resolved against the configured library root. -/
theorem claim_C5_book_info (db : Catalog) (base : List String)
    (slug : List Char) (id : Nat) (hid : get_id slug = .ok id) :
    (db id = none →
      get_book_info db base slug =
        (.error (.sqlite .queryReturnedNoRows), [.catalogQuery id])) ∧
    (∀ title path, db id = some (title, path) →
      get_book_info db base slug =
        (.ok { id := id, path := base ++ [path], title := title },
          [.catalogQuery id])) := by
  constructor
  · intro h
    simp only [get_book_info, hid, h]
  · intro t p h
    simp only [get_book_info, hid, h]

theorem claim_C5_witness :
    get_book_info (fun i => if i = 7 then some ("Dune", "dune") else none)
        ["lib"] ['7'] =
      (.ok { id := 7, path := ["lib", "dune"], title := "Dune" },
        [.catalogQuery 7]) ∧
    get_book_info (fun _ => none) ["lib"] ['9'] =
      (.error (.sqlite .queryReturnedNoRows), [.catalogQuery 9]) := by
  constructor
  · exact (claim_C5_book_info (fun i => if i = 7 then some ("Dune", "dune") else none)
      ["lib"] ['7'] 7 rfl).2 "Dune" "dune" rfl
  · exact (claim_C5_book_info (fun _ => none) ["lib"] ['9'] 9 rfl).1 rfl

/-! ## Theorems: listing books (C6) -/

theorem collectRows_append_error (pre post : List (Except SqliteErr BookRow))
    (e : SqliteErr) :
    collectRows (pre ++ .error e :: post) = none := by
  induction pre with
  | nil => rfl
  | cons r pre ih =>
      cases r with
      | error e2 => rfl
      | ok r => simp [collectRows, ih]

theorem collectRows_length (rows : List (Except SqliteErr BookRow))
    (rs : List BookRow) (h : collectRows rows = some rs) :
    rs.length = rows.length := by
  induction rows generalizing rs with
  | nil =>
      simp only [collectRows] at h
      cases h
      rfl
  | cons r rows ih =>
      cases r with
      | error e => simp [collectRows] at h
      | ok r =>
          simp only [collectRows, Option.map_eq_some'] at h
          rcases h with ⟨rs2, h2, hcons⟩
          subst hcons
          simp [ih rs2 h2]

/-- Claim C6 counterexample: a failing scan makes `list_books` panic (the
`.unwrap()` on `prepare`/`query_map`), and so does a single malformed row
(the `.unwrap()` inside `.map`): the error is a crash, not a returned
`CatalogUnavailable` value — `LibraryError` has no such variant at all. -/
theorem claim_C6_counterexample :
    list_books (.error .other) = .panicked ∧
    list_books (.ok [.error .other]) = .panicked :=
  ⟨rfl, rfl⟩

/-- Claim C6 (amended): when the underlying source cannot be queried,
`list_books` panics via `.unwrap()` — no error value is returned to the
caller (and `LibraryError` has no `CatalogUnavailable` variant); a single
malformed row likewise panics the whole call, yielding no partial results;
malformed rows are never silently filtered: a returned list has exactly one
book per scanned row. -/
theorem claim_C6_list_books :
    (∀ e : SqliteErr, list_books (.error e) = .panicked) ∧
    (∀ (pre post : List (Except SqliteErr BookRow)) (e : SqliteErr),
      list_books (.ok (pre ++ .error e :: post)) = .panicked) ∧
    (∀ (rows : List (Except SqliteErr BookRow)) (books : List Book),
      list_books (.ok rows) = .ok (.ok books) → books.length = rows.length) := by
  refine ⟨fun e => rfl, ?_, ?_⟩
  · intro pre post e
    simp only [list_books, collectRows_append_error]
  · intro rows books h
    simp only [list_books] at h
    cases hcol : collectRows rows with
    | none => rw [hcol] at h; simp at h
    | some rs =>
        rw [hcol] at h
        simp only [Outcome.ok.injEq, Except.ok.injEq] at h
        subst h
        simp [collectRows_length rows rs hcol]

/-! ## Theorems: resources and covers (C7, C8) -/

/-- Claim C7: for every document and every resource path absent from the
document, `get_resource` fails with exactly the `NotFound` error kind (never
any other kind for that condition); when the resource is present but its
MIME type is undetermined, the call still succeeds with the generic binary
content type — the fallback never causes a failure. -/
theorem claim_C7_get_resource (doc : Doc) (p : String) :
    (doc.resources p = none → get_resource doc p = .error .notFound) ∧
    (∀ content, doc.resources p = some content → doc.mimes p = none →
      get_resource doc p = .ok ("application/octet-stream", content)) ∧
    (∀ content, doc.resources p = some content →
      get_resource doc p =
        .ok ((doc.mimes p).getD "application/octet-stream", content)) := by
  refine ⟨?_, ?_, ?_⟩
  · intro h
    simp only [get_resource, h]
  · intro content hres hmime
    simp only [get_resource, hres, hmime, Option.getD_none]
  · intro content hres
    simp only [get_resource, hres]

theorem claim_C7_witness :
    get_resource docStub "missing.html" = .error .notFound ∧
    get_resource
        { resources := fun q => if q = "a.bin" then some [7] else none,
          mimes := fun _ => none, toc := [] } "a.bin" =
      .ok ("application/octet-stream", [7]) := by
  constructor
  · exact (claim_C7_get_resource docStub "missing.html").1 rfl
  · exact (claim_C7_get_resource
      { resources := fun q => if q = "a.bin" then some [7] else none,
        mimes := fun _ => none, toc := [] } "a.bin").2.1 [7] rfl rfl

theorem pathExtension_concat (dir : List String) (name : String) :
    pathExtension (dir ++ [name]) = pathExtension [name] := by
  unfold pathExtension
  rw [List.getLast?_concat]
  rfl

theorem coverMime_jpg (dir : List String) :
    coverMime (dir ++ ["cover.jpg"]) = "image/jpeg" := by
  unfold coverMime
  rw [pathExtension_concat]
  rfl

theorem coverMime_png (dir : List String) :
    coverMime (dir ++ ["cover.png"]) = "image/png" := by
  unfold coverMime
  rw [pathExtension_concat]
  rfl

/-- Claim C8: `get_cover` checks the fixed basename `cover` against the
fixed extensions in priority order JPEG before PNG, returning the first that
is a regular file, with the MIME type determined purely by the matched
extension (the same for every file content — no sniffing): only `cover.png`
present yields `image/png`; `cover.jpg` present yields `image/jpeg`
regardless of `cover.png`; neither present yields `NotFound`. -/
theorem claim_C8_get_cover (fs : FS) (dir : List String) :
    (fs.isFile (dir ++ ["cover.jpg"]) = false →
      fs.isFile (dir ++ ["cover.png"]) = false →
      get_cover fs dir = .error .notFound) ∧
    (∀ data, fs.isFile (dir ++ ["cover.jpg"]) = false →
      fs.isFile (dir ++ ["cover.png"]) = true →
      fs.readFile (dir ++ ["cover.png"]) = some data →
      get_cover fs dir = .ok ("image/png", data)) ∧
    (∀ data, fs.isFile (dir ++ ["cover.jpg"]) = true →
      fs.readFile (dir ++ ["cover.jpg"]) = some data →
      get_cover fs dir = .ok ("image/jpeg", data)) := by
  refine ⟨?_, ?_, ?_⟩
  · intro hjpg hpng
    simp only [get_cover, hjpg, hpng, Bool.false_eq_true, if_false]
  · intro data hjpg hpng hread
    simp only [get_cover, hjpg, hpng, hread, Bool.false_eq_true, if_false, if_true]
    rw [coverMime_png]
  · intro data hjpg hread
    simp only [get_cover, hjpg, hread, if_true]
    rw [coverMime_jpg]

theorem claim_C8_witness :
    get_cover
        { isFile := fun p => p = ["book", "cover.png"],
          readFile := fun p => if p = ["book", "cover.png"] then some [9] else none }
        ["book"] =
      .ok ("image/png", [9]) ∧
    get_cover { isFile := fun _ => false, readFile := fun _ => none } ["book"] =
      .error .notFound := by
  constructor
  · exact (claim_C8_get_cover
      { isFile := fun p => p = ["book", "cover.png"],
        readFile := fun p => if p = ["book", "cover.png"] then some [9] else none }
      ["book"]).2.1 [9] (by simp) (by simp) (by simp)
  · exact (claim_C8_get_cover
      { isFile := fun _ => false, readFile := fun _ => none } ["book"]).1 rfl rfl

/-! ## Theorems: the document cache (C2, C9) -/

/-- One `try_get_or_insert` keeps the capacity and the at-most-capacity
entry bound. -/
theorem try_insert_preserves (c : LruCache Doc) (k : Nat)
    (f : Unit → Except LibraryError Doc)
    (hlen : c.entries.length ≤ c.cap) (hcap : 1 ≤ c.cap) :
    (c.try_get_or_insert k f).2.cap = c.cap ∧
    (c.try_get_or_insert k f).2.entries.length ≤ c.cap := by
  cases hfind : c.entries.find? (fun p => p.1 == k) with
  | some pv =>
      rcases pv with ⟨a, v⟩
      simp only [LruCache.try_get_or_insert, hfind]
      refine ⟨by trivial, ?_⟩
      have hmem := List.mem_of_find?_eq_some hfind
      have hp := List.find?_some hfind
      have hany : c.entries.any (fun q => q.1 == k) = true :=
        List.any_eq_true.mpr ⟨(a, v), hmem, hp⟩
      have hpos : 1 ≤ c.entries.length := List.length_pos_of_mem hmem
      simp only [List.length_cons, List.length_eraseP, hany, if_true]
      omega
  | none =>
      cases hf : f () with
      | error e =>
          simp only [LruCache.try_get_or_insert, hfind, hf]
          exact ⟨by trivial, hlen⟩
      | ok v =>
          simp only [LruCache.try_get_or_insert, hfind, hf]
          refine ⟨by trivial, ?_⟩
          by_cases hfull : c.entries.length = c.cap
          · rw [if_pos hfull]
            simp only [List.length_cons, List.length_dropLast]
            omega
          · rw [if_neg hfull]
            simp only [List.length_cons]
            omega

/-- Every cache state reachable from `Library::new` has capacity 5 and at
most 5 entries. -/
theorem cacheReachable_bound (c : LruCache Doc) (h : CacheReachable c) :
    c.cap = 5 ∧ c.entries.length ≤ 5 := by
  induction h with
  | new => exact ⟨rfl, by simp [newCache]⟩
  | step c k f hc ih =>
      have h1 : c.entries.length ≤ c.cap := by rw [ih.1]; exact ih.2
      have h2 : 1 ≤ c.cap := by rw [ih.1]; omega
      have hb := try_insert_preserves c k f h1 h2
      simp only [get_epub_doc]
      exact ⟨hb.1.trans ih.1, by rw [← ih.1]; exact hb.2⟩

/-- Claim C2: the document cache holds at most 5 entries at all times with
the capacity fixed at 5 by `Library::new`; inserting a further distinct id
into a full cache evicts exactly the least-recently-used entry (the last of
the recency list) and only it; an access to an id already present moves it
to most-recently-used, so a following insertion of a fresh id evicts the
least-recently-used entry and not the freshly accessed one. -/
theorem claim_C2_cache_lru (c : LruCache Doc) (k : Nat)
    (f : Unit → Except LibraryError Doc) (v : Doc) :
    (∀ c' : LruCache Doc, CacheReachable c' →
      c'.cap = 5 ∧ c'.entries.length ≤ 5) ∧
    (c.entries.length = c.cap → (∀ p ∈ c.entries, p.1 ≠ k) → f () = .ok v →
      (c.try_get_or_insert k f).2.entries = (k, v) :: c.entries.dropLast) ∧
    (∀ p, c.entries.find? (fun q => q.1 == k) = some p →
      (c.try_get_or_insert k f).2.entries =
        (k, p.2) :: c.entries.eraseP (fun q => q.1 == k)) ∧
    (∀ (c' : LruCache Doc) (k' : Nat) (g : Unit → Except LibraryError Doc)
        (w w' : Doc),
      c'.entries.length = 5 → c'.cap = 5 → c'.entries.head? = some (k, w) →
      (∀ p ∈ c'.entries, p.1 ≠ k') → g () = .ok w' →
      (k, w) ∈ (c'.try_get_or_insert k' g).2.entries) := by
  refine ⟨cacheReachable_bound, ?_, ?_, ?_⟩
  · intro hfull habs hf
    have hnone : c.entries.find? (fun q => q.1 == k) = none :=
      List.find?_eq_none.mpr (fun p hp => by
        simp only [beq_iff_eq]
        exact habs p hp)
    simp only [LruCache.try_get_or_insert, hnone, hf]
    rw [if_pos hfull]
  · intro p hfind
    rcases p with ⟨a, w⟩
    simp only [LruCache.try_get_or_insert, hfind]
  · intro c' k' g w w' hlen hcap hhead habs hg
    have hnone : c'.entries.find? (fun q => q.1 == k') = none :=
      List.find?_eq_none.mpr (fun p hp => by
        simp only [beq_iff_eq]
        exact habs p hp)
    simp only [LruCache.try_get_or_insert, hnone, hg]
    rw [if_pos (hlen.trans hcap.symm)]
    cases hE : c'.entries with
    | nil => rw [hE] at hhead; simp at hhead
    | cons p rest =>
        rw [hE] at hhead
        simp only [List.head?_cons, Option.some.injEq] at hhead
        subst hhead
        cases rest with
        | nil => rw [hE] at hlen; simp at hlen
        | cons q rest' =>
            simp only [List.dropLast_cons₂]
            simp

theorem claim_C2_witness :
    (get_epub_doc
        { cap := 5, entries := [(1, docStub), (2, docStub), (3, docStub),
          (4, docStub), (5, docStub)] }
        6 (fun _ => .ok docStub)).2.entries =
      (6, docStub) :: [(1, docStub), (2, docStub), (3, docStub), (4, docStub)] ∧
    (newCache Doc).cap = 5 ∧ (newCache Doc).entries.length ≤ 5 := by
  constructor
  · have habs : ∀ p ∈ [(1, docStub), (2, docStub), (3, docStub),
        (4, docStub), (5, docStub)], (p : Nat × Doc).1 ≠ 6 := by
      intro p hp
      fin_cases hp <;> simp
    have h := (claim_C2_cache_lru
      { cap := 5, entries := [(1, docStub), (2, docStub), (3, docStub),
        (4, docStub), (5, docStub)] }
      6 (fun _ => .ok docStub) docStub).2.1 rfl habs rfl
    simp only [get_epub_doc]
    rw [h]
    rfl
  · exact (claim_C2_cache_lru (newCache Doc) 0 (fun _ => .error .notFound)
      docStub).1 (newCache Doc) CacheReachable.new

/-- Claim C9: when the cache's loader fails for an absent id,
`get_epub_doc` returns that error and the cache is unchanged — nothing is
inserted for the id; a subsequent call for the same id therefore runs its
loader again from scratch (no negative caching): with a now-succeeding
loader it returns the loaded document and inserts it as most recently
used. -/
theorem claim_C9_no_negative_caching (c : LruCache Doc) (k : Nat)
    (f g : Unit → Except LibraryError Doc) (e : LibraryError) (v : Doc)
    (habs : ∀ p ∈ c.entries, p.1 ≠ k) (hf : f () = .error e) :
    get_epub_doc c k f = (.error e, c) ∧
    (g () = .ok v → (get_epub_doc c k g).1 = .ok v ∧
      (get_epub_doc c k g).2.entries.head? = some (k, v)) := by
  have hnone : c.entries.find? (fun q => q.1 == k) = none :=
    List.find?_eq_none.mpr (fun p hp => by
      simp only [beq_iff_eq]
      exact habs p hp)
  constructor
  · simp only [get_epub_doc, LruCache.try_get_or_insert, hnone, hf]
  · intro hg
    simp only [get_epub_doc, LruCache.try_get_or_insert, hnone, hg]
    exact ⟨by trivial, by trivial⟩

theorem claim_C9_witness :
    get_epub_doc (newCache Doc) 1 (fun _ => .error .notFound) =
      (.error .notFound, newCache Doc) ∧
    (get_epub_doc (newCache Doc) 1 (fun _ => .ok docStub)).1 = .ok docStub ∧
    (get_epub_doc (newCache Doc) 1
        (fun _ => .ok docStub)).2.entries.head? = some (1, docStub) := by
  have h := claim_C9_no_negative_caching (newCache Doc) 1
    (fun _ => .error .notFound) (fun _ => .ok docStub) .notFound docStub
    (by intro p hp; simp [newCache] at hp) rfl
  exact ⟨h.1, (h.2 rfl).1, (h.2 rfl).2⟩

end Librari
